import Mathlib

/-!
Verification of the risk-annotation and avoidance-routing pipeline
(`fastapibackend/app`): a shallow embedding of the geometry kernel,
risk classifier, zone annotator, freshness cache, avoidance-geometry
builder and route orchestrator, followed by theorems about the
behaviour of these functions.

Conventions of the embedding:
* Python floats are modelled as rationals (`ℚ`); `round(x, k)` is
  modelled as rounding `x * 10^k` to the nearest integer.
* Python strings are Lean `String`s; `str.lower`, `str.strip`,
  `str.replace`, `in` (substring) and `str.split()` are modelled by
  executable functions below.
* Code that can raise is modelled in `Except`: `Except.error` marks the
  exception escaping the modelled function.
-/

/-- Model of Python `str.lower()` (ASCII data). -/
def lowerStr (s : String) : String := ⟨s.data.map Char.toLower⟩

/-- `leadsWith n h` is true when the list `h` starts with `n`. -/
def leadsWith : List Char → List Char → Bool
  | [], _ => true
  | _ :: _, [] => false
  | a :: as, b :: bs => a == b && leadsWith as bs

/-- `containsSeq n h` is true when `n` occurs contiguously in `h`;
model of Python `n in h` for strings. -/
def containsSeq (n : List Char) : List Char → Bool
  | [] => n.isEmpty
  | b :: bs => leadsWith n (b :: bs) || containsSeq n bs

/-- Python substring test `needle in hay`. -/
def strContains (needle hay : String) : Bool := containsSeq needle.data hay.data

/-- Worker for `replaceSeq`; the fuel starts at the length of the
text, and each step consumes at least one character and one unit of
fuel, so the fuel never runs out first. -/
def replaceSeqGo (pat rep : List Char) : ℕ → List Char → List Char
  | 0, l => l
  | fuel + 1, l =>
    match l with
    | [] => []
    | c :: rest =>
      if pat ≠ [] ∧ leadsWith pat (c :: rest) then
        rep ++ replaceSeqGo pat rep fuel (rest.drop (pat.length - 1))
      else c :: replaceSeqGo pat rep fuel rest

/-- Model of Python `str.replace(pat, rep)` (all occurrences, left to
right, non-overlapping); only called with a non-empty `pat`. -/
def replaceSeq (pat rep l : List Char) : List Char := replaceSeqGo pat rep l.length l

/-- Python `str.replace` on `String`. -/
def strReplace (pat rep s : String) : String := ⟨replaceSeq pat.data rep.data s.data⟩

/-- Model of Python `str.strip()`: drop whitespace from both ends. -/
def pyStrip (s : String) : String :=
  ⟨((s.data.dropWhile Char.isWhitespace).reverse.dropWhile Char.isWhitespace).reverse⟩

/-- Worker for `splitWs`: `cur` is the reversed token being read. -/
def splitWsGo : List Char → List Char → List (List Char)
  | [], cur => if cur = [] then [] else [cur.reverse]
  | c :: rest, cur =>
    if c.isWhitespace then
      if cur = [] then splitWsGo rest [] else cur.reverse :: splitWsGo rest []
    else splitWsGo rest (c :: cur)

/-- Model of Python `str.split()`: split on whitespace runs, dropping
empty pieces. -/
def splitWs (s : String) : List String :=
  (splitWsGo s.data []).map (fun cs => ⟨cs⟩)

/-- Python `" ".join(parts)`. -/
def joinSpace : List String → String
  | [] => ""
  | [p] => p
  | p :: rest => p ++ " " ++ joinSpace rest

/-- Python `round(t)` on exact rationals: round half to even, as the
float built-in does. -/
def pyRound (t : ℚ) : ℤ :=
  if 2 * Int.fract t < 1 then ⌊t⌋
  else if 1 < 2 * Int.fract t then ⌊t⌋ + 1
  else if ⌊t⌋ % 2 = 0 then ⌊t⌋ else ⌊t⌋ + 1

/-- Model of Python `round(x, k)` for a rational `x`: round
`x * 10^k` to the nearest integer and scale back. -/
def roundDec (k : ℕ) (x : ℚ) : ℚ := (pyRound (x * (10 ^ k : ℚ)) : ℚ) / (10 ^ k : ℚ)

/-- A coordinate pair as it appears in GeoJSON rings: `(lng, lat)`. -/
abbrev Pt := ℚ × ℚ

/-- A linear ring: an ordered list of `(lng, lat)` pairs. -/
abbrev LinRing := List Pt

/-- The `coordinates` member of a GeoJSON MultiPolygon:
a list of polygons, each a list of rings (outer ring first). -/
abbrev MultiPolyCoords := List (List LinRing)

/-- The `geometry` member of a feature, as the tagged union the code
branches on (`geometry.get("type")`). -/
inductive Geometry
  | polygon (rings : List LinRing)
  | multiPolygon (polys : List (List LinRing))
  | other
deriving DecidableEq

/-- A feature of the annotated safety FeatureCollection, with the
members read by the routing code: `properties["risk_level"]`
(`none` models a missing key) and `geometry`. -/
structure RFeature where
  risk_level : Option String
  geom : Geometry
deriving DecidableEq

/-- The annotated safety FeatureCollection consumed by the routing
endpoint. -/
structure FeatureColl where
  features : List RFeature
deriving DecidableEq

/-- One iteration of the edge loop of `point_in_polygon`
(route.py lines 56-65).  State = (`inside`, last assigned `xinters`,
`none` when `xinters` has never been assigned; reading it unassigned
would be a Python `NameError`, modelled as `Except.error`). -/
def pipStep (lat lng : ℚ) (st : Bool × Option ℚ) (seg : Pt × Pt) :
    Except Unit (Bool × Option ℚ) :=
  let (p1lng, p1lat) := seg.1
  let (p2lng, p2lat) := seg.2
  let inside := st.1
  if min p1lat p2lat < lat ∧ lat ≤ max p1lat p2lat ∧ lng ≤ max p1lng p2lng then
    let xopt := if p1lat ≠ p2lat then
        some ((lat - p1lat) * (p2lng - p1lng) / (p2lat - p1lat) + p1lng)
      else st.2
    if p1lng = p2lng then .ok (!inside, xopt)
    else
      match xopt with
      | some xi => .ok (if lng ≤ xi then !inside else inside, xopt)
      | none => .error ()
  else .ok (inside, st.2)

/-- Folds `pipStep` over the edge list. -/
def pipGo (lat lng : ℚ) : Bool × Option ℚ → List (Pt × Pt) → Except Unit (Bool × Option ℚ)
  | st, [] => .ok st
  | st, seg :: rest => do
    let st' ← pipStep lat lng st seg
    pipGo lat lng st' rest

/-- `point_in_polygon(point, polygon)` (route.py lines 45-67).
`point` is `(lat, lng)`; the ring is `(lng, lat)` pairs.  The code
reads `polygon[0]` before any length guard, so the empty ring is an
`IndexError`, modelled as `Except.error`.  The edges traversed are
`(r[0],r[1]), …, (r[n-1], r[0])`. -/
def point_in_polygon (point : ℚ × ℚ) (polygon : LinRing) : Except Unit Bool :=
  match polygon with
  | [] => .error ()
  | p0 :: rest =>
    let segs := List.zip (p0 :: rest) (rest ++ [p0])
    (pipGo point.1 point.2 (false, none) segs).map Prod.fst

/-- Scan of the sub-polygons of a MultiPolygon inside
`check_point_in_forbidden_zones` (route.py lines 90-94).  The whole
geometry access sits under `try/except: continue`, so a failure
(`poly_coords[0]` on an empty sub-polygon, or an error inside
`point_in_polygon`) abandons this feature and reports no containment. -/
def scanPolys (pt : ℚ × ℚ) : List (List LinRing) → Bool
  | [] => false
  | poly :: rest =>
    match poly with
    | [] => false
    | ring :: _ =>
      match point_in_polygon pt ring with
      | .error _ => false
      | .ok true => true
      | .ok false => scanPolys pt rest

/-- Per-feature step of `check_point_in_forbidden_zones`
(route.py lines 73-96): returns true when the point is found inside
this feature's avoided geometry. -/
def zoneHit (pt : ℚ × ℚ) (levels : List String) (f : RFeature) : Bool :=
  let risk := pyStrip (lowerStr (f.risk_level.getD ""))
  if (levels.map lowerStr).contains risk then
    match f.geom with
    | .polygon [] => false
    | .polygon (ring :: _) =>
      match point_in_polygon pt ring with
      | .ok true => true
      | _ => false
    | .multiPolygon [] => false
    | .multiPolygon polys => scanPolys pt polys
    | .other => false
  else false

/-- `check_point_in_forbidden_zones(point_coords, safety_polygons,
avoid_risk_levels)` (route.py lines 70-100).  All exceptions are
swallowed (outer `except: return False`, inner `except: continue`),
so the model is total. -/
def check_point_in_forbidden_zones (pt : ℚ × ℚ) (fc : FeatureColl)
    (levels : List String) : Bool :=
  fc.features.any (zoneHit pt levels)

/-- `_bisect_bbox(coords)` (routing_service.py lines 92-110): the
axis-aligned bounding box of a ring as a closed 5-point ring, each
coordinate rounded to 5 decimals; `None` on empty input.  (The
`TypeError/IndexError` guard of the source cannot fire in this typed
embedding, where every entry of a ring is a coordinate pair.) -/
def _bisect_bbox (coords : LinRing) : Option LinRing :=
  match coords with
  | [] => none
  | c :: cs =>
    let lons := (c :: cs).map Prod.fst
    let lats := (c :: cs).map Prod.snd
    let minLng := lons.tail.foldl min lons.head!
    let maxLng := lons.tail.foldl max lons.head!
    let minLat := lats.tail.foldl min lats.head!
    let maxLat := lats.tail.foldl max lats.head!
    some [
      (roundDec 5 minLng, roundDec 5 minLat),
      (roundDec 5 maxLng, roundDec 5 minLat),
      (roundDec 5 maxLng, roundDec 5 maxLat),
      (roundDec 5 minLng, roundDec 5 maxLat),
      (roundDec 5 minLng, roundDec 5 minLat)]

/-- Risk-level filter of `build_avoid_multipolygon`
(routing_service.py lines 124-127). -/
def riskMatches (levels : List String) (f : RFeature) : Bool :=
  (levels.map lowerStr).contains (pyStrip (lowerStr (f.risk_level.getD "")))

/-- Inner loop of `build_avoid_multipolygon` over the sub-polygons of
a MultiPolygon feature (routing_service.py lines 148-159).  `poly[0]`
on an empty sub-polygon is an uncaught `IndexError`. -/
def mpLoop (limit : ℕ) (acc : MultiPolyCoords) :
    List (List LinRing) → Except Unit MultiPolyCoords
  | [] => .ok acc
  | poly :: rest =>
    if limit ≤ acc.length then .ok acc
    else
      match poly with
      | [] => .error ()
      | ring :: _ =>
        match _bisect_bbox ring with
        | some bbox =>
          if 4 ≤ bbox.length then
            if bbox.head? = bbox.getLast? then mpLoop limit (acc ++ [[bbox]]) rest
            else mpLoop limit acc rest
          else mpLoop limit acc rest
        | none => mpLoop limit acc rest

/-- Body of the feature loop of `build_avoid_multipolygon`
(routing_service.py lines 124-159), run when the limit has not yet
been reached. -/
def procFeature (levels : List String) (limit : ℕ) (acc : MultiPolyCoords)
    (f : RFeature) : Except Unit MultiPolyCoords :=
  if ¬ riskMatches levels f then .ok acc
  else
    match f.geom with
    | .polygon [] => .ok acc
    | .polygon (ring :: _) =>
      match _bisect_bbox ring with
      | some bbox =>
        if 4 ≤ bbox.length then
          if bbox.head? = bbox.getLast? then .ok (acc ++ [[bbox]])
          else .ok acc
        else .ok acc
      | none => .ok acc
    | .multiPolygon [] => .ok acc
    | .multiPolygon polys => mpLoop limit acc polys
    | .other => .ok acc

/-- Feature loop of `build_avoid_multipolygon`
(routing_service.py lines 120-159), with the `break` once `limit`
rings have been collected. -/
def buildLoop (levels : List String) (limit : ℕ) (acc : MultiPolyCoords) :
    List RFeature → Except Unit MultiPolyCoords
  | [] => .ok acc
  | f :: rest =>
    if limit ≤ acc.length then .ok acc
    else do
      let acc' ← procFeature levels limit acc f
      buildLoop levels limit acc' rest

/-- `build_avoid_multipolygon(safety_polygons, avoid_risk_levels,
limit=30)` (routing_service.py lines 113-171): `none` when no rings
were collected, otherwise the MultiPolygon coordinate list. -/
def build_avoid_multipolygon (fc : FeatureColl) (levels : List String)
    (limit : ℕ := 30) : Except Unit (Option MultiPolyCoords) :=
  (buildLoop levels limit [] fc.features).map
    (fun rings => if rings = [] then none else some rings)

/-- The ORS request payload, restricted to the members the claims
are about (routing_service.py lines 174-210): the converted
coordinates and the `options.avoid_polygons` geometry when one is
attached (`none` when the `options` key is not added). -/
structure OrsPayload where
  coordinates : List (ℚ × ℚ)
  radiuses : List ℕ
  avoid_polygons : Option MultiPolyCoords
deriving DecidableEq

/-- `build_ors_payload(start, end, avoid_multipolygon, profile)`
(routing_service.py lines 174-210).  `start`/`end` are `(lat, lng)`;
the payload stores `(lng, lat)` rounded to 6 decimals.  The
`options.avoid_polygons` member is attached only for a present
MultiPolygon with a non-empty coordinate list whose non-empty
polygons survive the validity filter. -/
def build_ors_payload (start stop : ℚ × ℚ) (avoid : Option MultiPolyCoords) :
    OrsPayload :=
  { coordinates := [(roundDec 6 start.2, roundDec 6 start.1),
                    (roundDec 6 stop.2, roundDec 6 stop.1)],
    radiuses := [1000, 1000],
    avoid_polygons :=
      match avoid with
      | none => none
      | some coords =>
        if coords ≠ [] then
          let valid := coords.filter (fun poly => ¬ poly.isEmpty)
          if valid ≠ [] then some valid else none
        else none }

/-- `num_avoid_polygons` as computed in `safe_route`
(route.py lines 130-132). -/
def num_avoid_polygons (avoid : Option MultiPolyCoords) : ℕ :=
  match avoid with
  | some coords => coords.length
  | none => 0

/-- Effective avoid levels of a safe-route request
(route.py lines 115-125): emptied when either resolved endpoint lies
inside a zone whose risk level is in the requested avoid-set. -/
def effective_avoid_levels (startPt stopPt : ℚ × ℚ) (fc : FeatureColl)
    (levels : List String) : List String :=
  if check_point_in_forbidden_zones startPt fc levels
      || check_point_in_forbidden_zones stopPt fc levels then []
  else levels

/-- The `metadata` object attached to a safe-route response
(route.py lines 155-161 and 167-172). -/
structure RouteMeta where
  profile : String
  avoid_risk_levels : List String
  avoid_polygons_count : ℕ
  fallback_used : Bool
  fallback_reason : Option String
deriving DecidableEq

/-- The fixed status set of the fallback policy (route.py line 149). -/
def fallbackStatuses : List ℕ := [400, 404, 413, 504]

/-- The call-and-fallback phase of `safe_route`
(route.py lines 145-173).  `primary` is the outcome of the first
`call_ors` (with the avoidance payload), `fallback` the outcome of
the retry without avoidance; an `HTTPException` of status `s` is
`Except.error s`.  The fallback is consulted only when the primary
call failed with a status in `fallbackStatuses` while
`num_avoid_polygons > 0`; its own failure propagates uncaught. -/
def safe_route_ors_phase {α : Type} (profile : String)
    (effLevels : List String) (numAvoid : ℕ)
    (primary fallback : Except ℕ α) : Except ℕ (α × RouteMeta) :=
  match primary with
  | .ok body =>
    .ok (body, ⟨profile, effLevels, numAvoid, false, none⟩)
  | .error status =>
    if 0 < numAvoid ∧ status ∈ fallbackStatuses then
      match fallback with
      | .ok body =>
        .ok (body, ⟨profile, [], 0, true, some "Routing with avoid zones failed"⟩)
      | .error s2 => .error s2
    else .error status

/-- `_classify_risk_level(safety_score, predicted_label)`
(safety_area_service.py lines 90-111). -/
def _classify_risk_level (safety_score : ℚ) (predicted_label : String) : String :=
  if strContains "High Risk" predicted_label
      || strContains "high" (lowerStr predicted_label) then "forbidden"
  else if 7/10 ≤ safety_score then "safe"
  else if 4/10 ≤ safety_score then "caution"
  else "forbidden"

/-- The properties dict of one police-boundary feature, with the raw
keys read by the annotator and the keys it writes.  `none` models an
absent key: a freshly loaded boundary has every annotation field
`none`.  Geometry is never read or written by the annotation pass, so
the store tracks properties only. -/
structure ZProps where
  pol_stn_nm : String
  dist_nm : String
  range_nm : String
  sub_divisi : String
  safety_score : Option ℚ := none
  risk_level : Option String := none
  predicted_label : Option String := none
  station_id : Option String := none
  matched_station : Option String := none
  station_name : Option String := none
  district : Option String := none
  range_disp : Option String := none
  subdivision : Option String := none
  aqi : Option ℚ := none
deriving DecidableEq

/-- `station_name = props.get("POL_STN_NM", "").lower().strip()`
(safety_area_service.py line 244). -/
def rawStationName (p : ZProps) : String := pyStrip (lowerStr p.pol_stn_nm)

/-- `normalized_name = station_name.replace("ps ", "").replace(".", "").strip()`
(safety_area_service.py line 247). -/
def normalizedName (p : ZProps) : String :=
  pyStrip (strReplace "." "" (strReplace "ps " "" (rawStationName p)))

/-- Station-name reconciliation (safety_area_service.py lines 249-260):
first canonical key containing / contained in the normalized name,
else the first two whitespace tokens of the normalized name, else
`None`. -/
def matchStation (psKeys : List String) (normalized : String) : Option String :=
  match psKeys.find? (fun k => strContains k normalized || strContains normalized k) with
  | some k => some k
  | none =>
    let parts := splitWs normalized
    if parts = [] then none else some (joinSpace (parts.take 2))

/-- The AQI placed into the classifier feature row for one zone
(safety_area_service.py lines 262-272): the live mapping looked up
under the **matched** station key, sentinel `150.0` when the key is
falsy or absent.  `aqiData` models the live WAQI mapping
`station-key ↦ payload["aqi"]`. -/
def rowAqi (psKeys : List String) (aqiData : List (String × ℚ)) (p : ZProps) : ℚ :=
  match matchStation psKeys (normalizedName p) with
  | some k => if k ≠ "" then ((List.lookup k aqiData).getD 150) else 150
  | none => 150

/-- `f"ps_{idx:03d}"` (safety_area_service.py lines 322 and 341). -/
def psId (idx : ℕ) : String :=
  "ps_" ++ (if idx < 10 then "00" ++ toString idx
            else if idx < 100 then "0" ++ toString idx
            else toString idx)

/-- One iteration of the annotation loop of `get_safety_polygons`
(safety_area_service.py lines 300-344): a zone at index
`idx < labels.length` receives the full annotation, any zone beyond
that receives the conservative default.  `aqiData` models the live
AQI mapping (`station-key ↦ payload["aqi"]`); `stationNames` is the
`station_names` list collected by the feature-row loop (the raw
lowercased names, safety_area_service.py line 283); `labels`/`scores`
are the per-row classifier label and extracted safe probability.
Note the AQI lookup key here is `station_names[idx]`, the raw
lowercased name — not the matched canonical station key used for the
feature row (`rowAqi`). -/
def annotateZone (aqiData : List (String × ℚ)) (stationNames labels : List String)
    (scores : List ℚ) (idx : ℕ) (p : ZProps) : ZProps :=
  if idx < labels.length then
    let predicted_label := labels.getD idx ""
    let safety_score := scores.getD idx 0
    let risk := _classify_risk_level safety_score predicted_label
    let msn := stationNames.getD idx ""
    let stationAqi := if msn ≠ "" then ((List.lookup msn aqiData).getD 150) else 150
    { p with
        safety_score := some (roundDec 3 safety_score),
        risk_level := some risk,
        predicted_label := some predicted_label,
        station_id := some (psId idx),
        matched_station := some msn,
        station_name := some p.pol_stn_nm,
        district := some p.dist_nm,
        range_disp := some p.range_nm,
        subdivision := some p.sub_divisi,
        aqi := some (roundDec 1 stationAqi) }
  else
    { p with
        safety_score := some (1/2),
        risk_level := some "forbidden",
        predicted_label := some "Unknown",
        station_id := some (psId idx) }

/-- `for idx, feature in enumerate(...)` over the store, starting at
index `i`. -/
def idxMap {α β : Type} (f : ℕ → α → β) : ℕ → List α → List β
  | _, [] => []
  | i, a :: as => f i a :: idxMap f (i + 1) as

/-- The annotation pass of `get_safety_polygons`
(safety_area_service.py lines 237-344) over the property store of the
cached boundary features.  The shared properties dict of every
feature is overwritten in place, so the returned list is the new
state of the same store that every previously returned dataset's
zones point into. -/
def annotatePass (aqiData : List (String × ℚ))
    (labels : List String) (scores : List ℚ)
    (store : List ZProps) : List ZProps :=
  idxMap (annotateZone aqiData (store.map rawStationName) labels scores) 0 store

/-- One stored entry of the module-level `_timed_cache` dict:
`key ↦ (value, cached_time)`. -/
abbrev CacheStore (V : Type) := List (String × V × ℚ)

/-- Dict assignment `_timed_cache[key] = (val, now)`: replace the
entry for `key` or append a new one. -/
def storeEntry {V : Type} (key : String) (val : V × ℚ) :
    CacheStore V → CacheStore V
  | [] => [(key, val)]
  | (k, v) :: rest =>
    if k = key then (key, val) :: rest else (k, v) :: storeEntry key val rest

/-- The `timed_cache` wrapper body (safety_area_service.py lines
26-49) for one call: `now1` is the clock at the freshness check,
`now2` at the store; `producer` is the outcome of
`await func(*args, **kwargs)` — `Except.error` when it raises.  The
wrapper returns the served value and the cache dict as left after the
call; an exception escapes before the store line runs. -/
def cachedCall {V E : Type} (cache : CacheStore V) (ttl now1 now2 : ℚ)
    (key : String) (producer : Except E V) : Except E V × CacheStore V :=
  match List.lookup key cache with
  | some (v, t) =>
    if now1 - t < ttl then (.ok v, cache)
    else
      match producer with
      | .error e => (.error e, cache)
      | .ok v' => (.ok v', storeEntry key (v', now2) cache)
  | none =>
    match producer with
    | .error e => (.error e, cache)
    | .ok v' => (.ok v', storeEntry key (v', now2) cache)

/-! ### Concrete scenario data and qualifying-ring counts -/

/-- A freshly loaded boundary feature used in concrete scenarios. -/
def alphaZone : ZProps :=
  { pol_stn_nm := "PS Alpha.", dist_nm := "D", range_nm := "R", sub_divisi := "S" }

/-- The shared property store after a first annotation pass. -/
def heapPass1 : List ZProps := annotatePass [] ["Safe"] [9/10] [alphaZone]

/-- The same store after a second annotation pass: `get_safety_polygons`
mutates `props` of the `lru_cache`-shared boundary features in place
(`props.update(...)`, safety_area_service.py lines 318-343), and every
previously returned dataset holds references to exactly these
features, so the zones of the first returned dataset now read the
second pass's annotations. -/
def heapPass2 : List ZProps := annotatePass [] ["High Risk"] [9/10] heapPass1

/-- A `forbidden` zone whose polygon strictly contains the start
point `(5, 5)` of the witness request. -/
def squareZone : RFeature :=
  { risk_level := some "forbidden",
    geom := .polygon [[(0, 0), (10, 0), (10, 10), (0, 10), (0, 0)]] }

/-- Whether a ring yields a usable bounding-box ring. -/
def ringOk (r : LinRing) : Bool := (_bisect_bbox r).isSome

def polyQualCount (polys : List (List LinRing)) : ℕ :=
  (polys.filter (fun poly => match poly with
    | [] => false
    | r :: _ => ringOk r)).length

def featQualCount (levels : List String) (f : RFeature) : ℕ :=
  if riskMatches levels f then
    match f.geom with
    | .polygon [] => 0
    | .polygon (r :: _) => if ringOk r then 1 else 0
    | .multiPolygon polys => polyQualCount polys
    | .other => 0
  else 0

def qualCount (fc : FeatureColl) (levels : List String) : ℕ :=
  (fc.features.map (featQualCount levels)).sum

/-- The bounding box the builder derives from `squareZone`'s ring. -/
def sqBbox : LinRing := [((0 : ℚ), (0 : ℚ)), (10, 0), (10, 10), (0, 10), (0, 0)]

/-- A zone matching the avoid-set whose MultiPolygon geometry contains
one empty sub-polygon: `coords = [[]]` is truthy, so the builder's
MultiPolygon loop reaches `poly[0]` (routing_service.py line 153) with
`poly = []` and raises an uncaught `IndexError`. -/
def emptySubPolyZone : RFeature :=
  { risk_level := some "forbidden", geom := .multiPolygon [[]] }

/-! ### Shared lemmas -/

lemma ok_bind {α β γ : Type} (a : α) (f : α → Except γ β) :
    (Except.ok a : Except γ α).bind f = f a := rfl

lemma pipGo_nil (lat lng : ℚ) (st : Bool × Option ℚ) : pipGo lat lng st [] = .ok st := rfl

lemma pipGo_cons (lat lng : ℚ) (st : Bool × Option ℚ) (s : Pt × Pt) (rest : List (Pt × Pt)) :
    pipGo lat lng st (s :: rest) =
      (pipStep lat lng st s).bind (fun st' => pipGo lat lng st' rest) := rfl

lemma pipStep_skip (lat lng p1lng p1lat p2lng p2lat : ℚ) (st : Bool × Option ℚ)
    (h : ¬ (min p1lat p2lat < lat ∧ lat ≤ max p1lat p2lat ∧ lng ≤ max p1lng p2lng)) :
    pipStep lat lng st ((p1lng, p1lat), (p2lng, p2lat)) = .ok (st.1, st.2) := by
  simp only [pipStep]
  rw [if_neg h]

lemma pipStep_hit (lat lng p1lng p1lat p2lng p2lat : ℚ) (st : Bool × Option ℚ)
    (hG : min p1lat p2lat < lat ∧ lat ≤ max p1lat p2lat ∧ lng ≤ max p1lng p2lng)
    (hne : p1lat ≠ p2lat) :
    pipStep lat lng st ((p1lng, p1lat), (p2lng, p2lat)) =
      .ok (if p1lng = p2lng ∨ lng ≤ (lat - p1lat) * (p2lng - p1lng) / (p2lat - p1lat) + p1lng
           then !st.1 else st.1,
           some ((lat - p1lat) * (p2lng - p1lng) / (p2lat - p1lat) + p1lng)) := by
  simp only [pipStep]
  rw [if_pos hG, if_pos hne]
  by_cases hpq : p1lng = p2lng
  · rw [if_pos hpq, if_pos (Or.inl hpq)]
  · rw [if_neg hpq]
    dsimp only
    by_cases hle : lng ≤ (lat - p1lat) * (p2lng - p1lng) / (p2lat - p1lat) + p1lng
    · rw [if_pos hle, if_pos (Or.inr hle)]
    · rw [if_neg hle, if_neg (by rintro (h | h) <;> [exact hpq h; exact hle h])]

/-! ### C1: fallback policy of the route orchestrator -/

/-- C1: when the primary directions call fails with a status in the
fixed set {400, 404, 413, 504} while the attached avoidance geometry
was non-empty (`0 < numAvoid`), the orchestrator's result is exactly
the outcome of the single fallback attempt (the avoidance geometry
removed), tagged with `fallback_used = true` and
`avoid_polygons_count = 0`; a fallback failure surfaces unmodified.
In every other failure case the primary error propagates unmodified. -/
theorem safe_route_fallback_policy {α : Type} (profile : String)
    (effLevels : List String) (numAvoid : ℕ) (fb : Except ℕ α) (status : ℕ) :
    safe_route_ors_phase profile effLevels numAvoid (.error status) fb =
      (if 0 < numAvoid ∧ status ∈ fallbackStatuses then
        fb.map (fun b =>
          (b, ⟨profile, [], 0, true, some "Routing with avoid zones failed"⟩))
      else .error status) := by
  simp only [safe_route_ors_phase]
  split
  · cases fb <;> rfl
  · rfl

/-! ### C8: producer failure leaves the freshness cache untouched -/

/-- C8: when the producer invoked on a cache miss or after ttl expiry
raises, the exception propagates to the caller and the cache is left
exactly as it was: nothing is stored and no expired entry is
replaced. -/
theorem timed_cache_producer_error_no_poison {V E : Type} (cache : CacheStore V)
    (ttl now1 now2 : ℚ) (key : String) (e : E)
    (hstale : ∀ v t, List.lookup key cache = some (v, t) → ttl ≤ now1 - t) :
    cachedCall cache ttl now1 now2 key (.error e) = (.error e, cache) := by
  unfold cachedCall
  cases hl : List.lookup key cache with
  | none => rfl
  | some vt =>
    obtain ⟨v, t⟩ := vt
    dsimp only
    rw [if_neg (not_lt.mpr (hstale v t hl))]

theorem timed_cache_producer_error_no_poison_witness :
    cachedCall (V := ℕ) [("k", 7, 0)] 30 50 50 "k" (.error "boom") =
      (.error "boom", [("k", 7, 0)]) := by
  apply timed_cache_producer_error_no_poison
  intro v t h
  simp [List.lookup] at h
  rw [← h.2]
  norm_num

/-! ### C4: degenerate rings in the point-in-polygon test -/

/-- C4 counterexample: on the empty ring, `point_in_polygon` does not
return false — the read of `polygon[0]` raises (`IndexError`),
modelled by `Except.error`. -/
theorem point_in_polygon_empty_ring_raises :
    point_in_polygon ((0 : ℚ), (0 : ℚ)) [] = .error () := rfl

/-- C4 amended: for a degenerate ring of fewer than 3 points the test
returns false without raising **except** on the empty ring, where the
unguarded read of `polygon[0]` raises an `IndexError`. -/
theorem point_in_polygon_short_ring (pt : ℚ × ℚ) (ring : LinRing)
    (h : ring.length ≤ 2) :
    point_in_polygon pt ring = if ring = [] then .error () else .ok false := by
  obtain ⟨lat, lng⟩ := pt
  match ring, h with
  | [], _ => rfl
  | [p], _ =>
    obtain ⟨plng, plat⟩ := p
    rw [if_neg (by simp)]
    show (pipGo lat lng (false, none) [((plng, plat), (plng, plat))]).map Prod.fst
      = .ok false
    rw [pipGo_cons, pipStep_skip]
    · rfl
    · rintro ⟨h1, h2, -⟩
      simp only [min_self, max_self] at h1 h2
      exact absurd (h1.trans_le h2) (lt_irrefl _)
  | [p, q], _ =>
    obtain ⟨plng, plat⟩ := p
    obtain ⟨qlng, qlat⟩ := q
    rw [if_neg (by simp)]
    show (pipGo lat lng (false, none)
      [((plng, plat), (qlng, qlat)), ((qlng, qlat), (plng, plat))]).map Prod.fst
      = .ok false
    by_cases hG : (min plat qlat < lat ∧ lat ≤ max plat qlat ∧ lng ≤ max plng qlng)
    · obtain ⟨h1, h2, h3⟩ := hG
      have hne : plat ≠ qlat := by
        rintro rfl
        simp only [min_self, max_self] at h1 h2
        exact absurd (h1.trans_le h2) (lt_irrefl _)
      have hG' : min qlat plat < lat ∧ lat ≤ max qlat plat ∧ lng ≤ max qlng plng :=
        ⟨min_comm qlat plat ▸ h1, max_comm qlat plat ▸ h2, max_comm qlng plng ▸ h3⟩
      have hden1 : qlat - plat ≠ 0 := sub_ne_zero.mpr (Ne.symm hne)
      have hden2 : plat - qlat ≠ 0 := sub_ne_zero.mpr hne
      have hx : (lat - qlat) * (plng - qlng) / (plat - qlat) + qlng
          = (lat - plat) * (qlng - plng) / (qlat - plat) + plng := by
        field_simp
        ring
      rw [pipGo_cons, pipStep_hit _ _ _ _ _ _ _ ⟨h1, h2, h3⟩ hne, ok_bind,
          pipGo_cons, pipStep_hit _ _ _ _ _ _ _ hG' (Ne.symm hne), ok_bind, pipGo_nil]
      by_cases hc : (plng = qlng ∨
          lng ≤ (lat - plat) * (qlng - plng) / (qlat - plat) + plng)
      · have hc2 : qlng = plng ∨
            lng ≤ (lat - qlat) * (plng - qlng) / (plat - qlat) + qlng := by
          rw [hx, eq_comm]; exact hc
        simp [hc, hc2, Except.map]
      · have hc2 : ¬ (qlng = plng ∨
            lng ≤ (lat - qlat) * (plng - qlng) / (plat - qlat) + qlng) := by
          rw [hx, eq_comm]; exact hc
        simp [hc, hc2, Except.map]
    · have hG' : ¬ (min qlat plat < lat ∧ lat ≤ max qlat plat ∧ lng ≤ max qlng plng) := by
        rw [min_comm, max_comm qlat, max_comm qlng]; exact hG
      rw [pipGo_cons, pipStep_skip _ _ _ _ _ _ _ hG]
      show (pipGo lat lng (false, none) [((qlng, qlat), (plng, plat))]).map Prod.fst = .ok false
      rw [pipGo_cons, pipStep_skip _ _ _ _ _ _ _ hG']
      rfl

theorem point_in_polygon_short_ring_witness :
    ([((1 : ℚ), (1 : ℚ)), ((2 : ℚ), (3 : ℚ))] : LinRing).length ≤ 2 ∧
      point_in_polygon ((0 : ℚ), (0 : ℚ)) [((1 : ℚ), (1 : ℚ)), ((2 : ℚ), (3 : ℚ))] =
        (if ([((1 : ℚ), (1 : ℚ)), ((2 : ℚ), (3 : ℚ))] : LinRing) = []
         then .error () else .ok false) :=
  ⟨by decide, point_in_polygon_short_ring _ _ (by decide)⟩

/-! ### Annotation-pass lemmas -/

lemma idxMap_length {α β : Type} (f : ℕ → α → β) (i : ℕ) (l : List α) :
    (idxMap f i l).length = l.length := by
  induction l generalizing i with
  | nil => rfl
  | cons a as ih => simp [idxMap, ih]

lemma idxMap_get {α β : Type} (f : ℕ → α → β) (i : ℕ) (l : List α) (j : ℕ)
    (h : j < l.length) (h' : j < (idxMap f i l).length) :
    (idxMap f i l).get ⟨j, h'⟩ = f (i + j) (l.get ⟨j, h⟩) := by
  induction l generalizing i j with
  | nil => exact absurd h (by simp)
  | cons a as ih =>
    cases j with
    | zero => simp [idxMap]
    | succ j =>
      simp only [idxMap, List.get_cons_succ]
      rw [ih (i + 1) j (by simpa using h) (by simpa [idxMap_length] using h')]
      ring_nf

lemma annotatePass_length (aqiData : List (String × ℚ)) (labels : List String)
    (scores : List ℚ) (store : List ZProps) :
    (annotatePass aqiData labels scores store).length = store.length := by
  simp [annotatePass, idxMap_length]

/-! ### C5: a later annotation pass rewrites earlier datasets -/

/-- C5 is violated by the code: the first pass leaves zone 0 of the
returned dataset with `risk_level = "safe"`, and the second pass
overwrites that very zone (the shared, cached feature dict) to
`"forbidden"` — the dataset returned first is mutated, not superseded. -/
theorem annotation_pass_rewrites_shared_store :
    heapPass1.map (fun p => p.risk_level) = [some "safe"] ∧
    heapPass2.map (fun p => p.risk_level) = [some "forbidden"] := by
  constructor <;>
    norm_num [heapPass1, heapPass2, annotatePass, idxMap, annotateZone,
      _classify_risk_level, strContains, lowerStr, containsSeq, leadsWith]
  all_goals decide

/-! ### C6: zone ids -/

/-- C6 counterexample: the id assigned to the first zone of a concrete
annotation pass is `"ps_000"` under the `station_id` key — it does not
even start with `"zone_"`, so it is not of the claimed `zone_###`
format. -/
theorem station_id_not_zone_format :
    (annotatePass [] ["Safe"] [(9 : ℚ)/10] [alphaZone]).map (fun p => p.station_id)
        = [some "ps_000"] ∧
      leadsWith "zone_".data "ps_000".data = false := by
  constructor
  · norm_num [annotatePass, idxMap, annotateZone, psId]
    decide
  · decide

/-- C6 amended: every zone of every annotation pass — including zones
beyond the returned prediction count — is assigned a stable id derived
from its row index, but the format is `ps_###` (three-digit padded)
stored under the `station_id` key, not `zone_###`. -/
theorem station_id_ps_format (aqiData : List (String × ℚ)) (labels : List String)
    (scores : List ℚ) (store : List ZProps) (i : ℕ) (h : i < store.length) :
    ((annotatePass aqiData labels scores store).get
        ⟨i, (annotatePass_length aqiData labels scores store).symm ▸ h⟩).station_id
      = some (psId i) := by
  unfold annotatePass
  rw [idxMap_get _ _ _ _ h]
  by_cases hi : i < labels.length <;> simp [annotateZone, hi]

theorem station_id_ps_format_witness :
    (0 : ℕ) < ([alphaZone] : List ZProps).length ∧
      ((annotatePass [] [] [] [alphaZone]).get
        ⟨0, by simp [annotatePass_length]⟩).station_id = some (psId 0) :=
  ⟨by decide, station_id_ps_format [] [] [] [alphaZone] 0 (by decide)⟩

/-! ### C10: the annotated `aqi` is keyed by the raw station name -/

/-- C10: in the annotation loop, the `aqi` written into a zone's
properties is looked up in the live AQI mapping under
`station_names[idx]` — the zone's raw lowercased station name — and
not under the matched canonical station key that `rowAqi` used for
the classifier's feature row; consequently a zone whose raw name is
not a key of the mapping is annotated with the sentinel `150.0`. -/
theorem annotated_aqi_keyed_by_raw_name (aqiData : List (String × ℚ))
    (labels : List String) (scores : List ℚ) (store : List ZProps) (i : ℕ)
    (h : i < store.length) (hi : i < labels.length) :
    ((annotatePass aqiData labels scores store).get
        ⟨i, (annotatePass_length aqiData labels scores store).symm ▸ h⟩).aqi
      = some (roundDec 1 (if rawStationName (store.get ⟨i, h⟩) ≠ ""
          then (List.lookup (rawStationName (store.get ⟨i, h⟩)) aqiData).getD 150
          else 150)) ∧
    (List.lookup (rawStationName (store.get ⟨i, h⟩)) aqiData = none →
      ((annotatePass aqiData labels scores store).get
        ⟨i, (annotatePass_length aqiData labels scores store).symm ▸ h⟩).aqi
        = some 150) := by
  have hmsn : (store.map rawStationName).getD i "" = rawStationName (store.get ⟨i, h⟩) := by
    rw [List.getD_eq_getElem?_getD, List.getElem?_map, List.getElem?_eq_getElem h]
    rfl
  have hmain : ((annotatePass aqiData labels scores store).get
      ⟨i, (annotatePass_length aqiData labels scores store).symm ▸ h⟩).aqi
      = some (roundDec 1 (if rawStationName (store.get ⟨i, h⟩) ≠ ""
          then (List.lookup (rawStationName (store.get ⟨i, h⟩)) aqiData).getD 150
          else 150)) := by
    unfold annotatePass
    rw [idxMap_get _ _ _ _ h]
    simp only [Nat.zero_add, annotateZone, hi, if_true, hmsn]
  refine ⟨hmain, fun hmiss => ?_⟩
  rw [hmain, hmiss]
  have h150 : roundDec 1 (150 : ℚ) = 150 := by
    norm_num [roundDec, pyRound, Int.fract]
  by_cases hraw : rawStationName (store.get ⟨i, h⟩) = "" <;> simp [hraw, h150]

/-- Witness: the zone named `"PS Alpha."` matches the canonical key
`"alpha"`, whose live AQI 199 feeds the feature row (`rowAqi`), yet
the annotated `aqi` is the sentinel 150 because the raw name
`"ps alpha."` is not a key of the mapping. -/
theorem annotated_aqi_keyed_by_raw_name_witness :
    rowAqi ["alpha"] [("alpha", 199)] alphaZone = 199 ∧
      ((annotatePass [("alpha", 199)] ["Safe"] [(9 : ℚ)/10] [alphaZone]).get
        ⟨0, by simp [annotatePass_length]⟩).aqi = some 150 := by
  constructor
  · have hm : matchStation ["alpha"] (normalizedName alphaZone) = some "alpha" := by
      decide
    simp [rowAqi, hm, List.lookup]
  · exact (annotated_aqi_keyed_by_raw_name [("alpha", 199)] ["Safe"] [(9 : ℚ)/10]
      [alphaZone] 0 (by decide) (by decide)).2 (by decide)

/-! ### C3: risk-level classification -/

lemma leadsWith_map (f : Char → Char) (n : List Char) :
    ∀ h : List Char, leadsWith n h = true → leadsWith (n.map f) (h.map f) = true := by
  induction n with
  | nil => intro h _; rfl
  | cons a as ih =>
    intro h hl
    cases h with
    | nil => simp [leadsWith] at hl
    | cons b bs =>
      simp only [leadsWith, Bool.and_eq_true, beq_iff_eq] at hl
      simp only [List.map_cons, leadsWith, Bool.and_eq_true, beq_iff_eq]
      exact ⟨by rw [hl.1], ih bs hl.2⟩

lemma containsSeq_map (f : Char → Char) (n h : List Char)
    (hc : containsSeq n h = true) :
    containsSeq (n.map f) (h.map f) = true := by
  induction h with
  | nil =>
    simp only [containsSeq, List.isEmpty_iff] at hc
    simp [containsSeq, hc]
  | cons b bs ih =>
    simp only [containsSeq, Bool.or_eq_true] at hc
    simp only [List.map_cons, containsSeq, Bool.or_eq_true]
    rcases hc with h1 | h2
    · exact Or.inl (by simpa using leadsWith_map f n (b :: bs) h1)
    · exact Or.inr (ih h2)

lemma leadsWith_append (n₁ n₂ : List Char) :
    ∀ h : List Char, leadsWith (n₁ ++ n₂) h = true → leadsWith n₁ h = true := by
  induction n₁ with
  | nil => intro h _; rfl
  | cons a as ih =>
    intro h hl
    cases h with
    | nil => simp [leadsWith] at hl
    | cons b bs =>
      simp only [List.cons_append, leadsWith, Bool.and_eq_true, beq_iff_eq] at hl
      simp only [leadsWith, Bool.and_eq_true, beq_iff_eq]
      exact ⟨hl.1, ih bs hl.2⟩

lemma containsSeq_append_left (n₁ n₂ h : List Char)
    (hc : containsSeq (n₁ ++ n₂) h = true) :
    containsSeq n₁ h = true := by
  induction h with
  | nil =>
    simp only [containsSeq, List.isEmpty_iff, List.append_eq_nil] at hc
    simp [containsSeq, hc.1]
  | cons b bs ih =>
    simp only [containsSeq, Bool.or_eq_true] at hc ⊢
    rcases hc with h1 | h2
    · exact Or.inl (leadsWith_append n₁ n₂ (b :: bs) h1)
    · exact Or.inr (ih h2)

lemma highRisk_implies_high (L : String)
    (hH : strContains "High Risk" L = true) :
    strContains "high" (lowerStr L) = true := by
  have h1 : containsSeq ("High Risk".data.map Char.toLower)
      (L.data.map Char.toLower) = true := containsSeq_map Char.toLower _ _ hH
  have h2 : "High Risk".data.map Char.toLower = "high".data ++ " risk".data := by decide
  rw [h2] at h1
  exact containsSeq_append_left _ _ _ h1

/-- C3: the classifier returns `forbidden` whenever the predicted
label contains `"high"` case-insensitively (the `"High Risk"` test of
the source is subsumed by the lowercased test), otherwise `safe` for
score ≥ 0.7, `caution` for 0.4 ≤ score < 0.7, `forbidden` for
score < 0.4; the result is always one of exactly these three. -/
theorem classify_risk_level_spec (s : ℚ) (L : String) :
    _classify_risk_level s L =
      (if strContains "high" (lowerStr L) then "forbidden"
       else if 7/10 ≤ s then "safe"
       else if 4/10 ≤ s then "caution"
       else "forbidden") ∧
    (_classify_risk_level s L = "safe" ∨ _classify_risk_level s L = "caution" ∨
      _classify_risk_level s L = "forbidden") := by
  have key : (strContains "High Risk" L || strContains "high" (lowerStr L))
      = strContains "high" (lowerStr L) := by
    cases ha : strContains "High Risk" L
    · simp
    · simp [highRisk_implies_high L ha]
  have hmain : _classify_risk_level s L =
      (if strContains "high" (lowerStr L) then "forbidden"
       else if 7/10 ≤ s then "safe"
       else if 4/10 ≤ s then "caution"
       else "forbidden") := by
    unfold _classify_risk_level
    rw [key]
  refine ⟨hmain, ?_⟩
  rw [hmain]
  split_ifs <;> simp

lemma riskMatches_nil (f : RFeature) : riskMatches [] f = false := by
  simp [riskMatches]

lemma buildLoop_nil_levels (limit : ℕ) (acc : MultiPolyCoords) :
    ∀ feats : List RFeature, buildLoop [] limit acc feats = .ok acc := by
  intro feats
  induction feats with
  | nil => rfl
  | cons f rest ih =>
    unfold buildLoop
    split
    · rfl
    · rw [show procFeature [] limit acc f = .ok acc by
        unfold procFeature; rw [if_pos (by simp [riskMatches_nil])]]
      exact ih

lemma build_avoid_nil_levels (fc : FeatureColl) (limit : ℕ) :
    build_avoid_multipolygon fc [] limit = .ok none := by
  unfold build_avoid_multipolygon
  rw [buildLoop_nil_levels]
  rfl

/-! ### C2: endpoint inside an avoided zone suppresses avoidance -/

/-- C2: when either resolved endpoint lies inside a zone whose risk
level is in the requested avoid-set (per the point-in-polygon check
over every such zone), the effective avoid-set becomes empty, the
avoidance builder (at the default limit 30 used by `safe_route`)
yields no geometry at all, and the provider payload carries no
`avoid_polygons` option. -/
theorem endpoint_in_avoided_zone_clears_avoidance (startPt stopPt : ℚ × ℚ)
    (fc : FeatureColl) (levels : List String)
    (h : check_point_in_forbidden_zones startPt fc levels = true ∨
         check_point_in_forbidden_zones stopPt fc levels = true) :
    effective_avoid_levels startPt stopPt fc levels = [] ∧
      build_avoid_multipolygon fc (effective_avoid_levels startPt stopPt fc levels) 30
        = .ok none ∧
      (build_ors_payload startPt stopPt none).avoid_polygons = none := by
  have heff : effective_avoid_levels startPt stopPt fc levels = [] := by
    rcases h with h | h <;> simp [effective_avoid_levels, h]
  exact ⟨heff, by rw [heff]; exact build_avoid_nil_levels fc 30, rfl⟩

theorem endpoint_in_avoided_zone_clears_avoidance_witness :
    check_point_in_forbidden_zones ((5 : ℚ), (5 : ℚ)) ⟨[squareZone]⟩ ["forbidden"] = true ∧
      effective_avoid_levels ((5 : ℚ), (5 : ℚ)) ((20 : ℚ), (20 : ℚ)) ⟨[squareZone]⟩ ["forbidden"] = [] := by
  have hc : check_point_in_forbidden_zones ((5 : ℚ), (5 : ℚ)) ⟨[squareZone]⟩ ["forbidden"] = true := by
    norm_num [check_point_in_forbidden_zones, zoneHit, squareZone, point_in_polygon,
      pipGo, pipStep, lowerStr, pyStrip, min_def, max_def, Except.map]
    decide
  exact ⟨hc, (endpoint_in_avoided_zone_clears_avoidance _ _ _ _ (Or.inl hc)).1⟩

lemma abs_pyRound_sub_le (t : ℚ) : |(pyRound t : ℚ) - t| ≤ 1/2 := by
  have h0 : (⌊t⌋ : ℚ) ≤ t := Int.floor_le t
  have h1 : t < (⌊t⌋ : ℚ) + 1 := Int.lt_floor_add_one t
  unfold pyRound
  simp only [Int.fract]
  split_ifs <;> rw [abs_le] <;> push_cast <;> constructor <;> linarith

lemma abs_roundDec5_sub_le (x : ℚ) : |roundDec 5 x - x| ≤ 1/200000 := by
  have h := abs_pyRound_sub_le (x * (10 ^ 5 : ℚ))
  have h5 : (0 : ℚ) < (10 ^ 5 : ℚ) := by norm_num
  rw [roundDec]
  have : (pyRound (x * 10 ^ 5) : ℚ) / 10 ^ 5 - x
      = ((pyRound (x * 10 ^ 5) : ℚ) - x * 10 ^ 5) / 10 ^ 5 := by
    field_simp
    ring
  rw [this, abs_div, abs_of_pos h5]
  rw [div_le_iff₀ h5]
  calc |(pyRound (x * 10 ^ 5) : ℚ) - x * 10 ^ 5| ≤ 1/2 := h
    _ ≤ 1/200000 * 10 ^ 5 := by norm_num

lemma foldl_min_le_self (l : List ℚ) : ∀ a : ℚ, l.foldl min a ≤ a := by
  induction l with
  | nil => intro a; exact le_refl a
  | cons b bs ih =>
    intro a
    calc (b :: bs).foldl min a = bs.foldl min (min a b) := rfl
      _ ≤ min a b := ih _
      _ ≤ a := min_le_left _ _

lemma foldl_min_le_mem (l : List ℚ) : ∀ (a x : ℚ), x ∈ l → l.foldl min a ≤ x := by
  induction l with
  | nil => intro a x hx; exact absurd hx (by simp)
  | cons b bs ih =>
    intro a x hx
    rcases List.mem_cons.mp hx with rfl | hx
    · calc (x :: bs).foldl min a = bs.foldl min (min a x) := rfl
        _ ≤ min a x := foldl_min_le_self bs _
        _ ≤ x := min_le_right _ _
    · exact ih (min a b) x hx

lemma le_foldl_max_self (l : List ℚ) : ∀ a : ℚ, a ≤ l.foldl max a := by
  induction l with
  | nil => intro a; exact le_refl a
  | cons b bs ih =>
    intro a
    calc a ≤ max a b := le_max_left _ _
      _ ≤ bs.foldl max (max a b) := ih _
      _ = (b :: bs).foldl max a := rfl

lemma le_foldl_max_mem (l : List ℚ) : ∀ (a x : ℚ), x ∈ l → x ≤ l.foldl max a := by
  induction l with
  | nil => intro a x hx; exact absurd hx (by simp)
  | cons b bs ih =>
    intro a x hx
    rcases List.mem_cons.mp hx with rfl | hx
    · calc x ≤ max a x := le_max_right _ _
        _ ≤ bs.foldl max (max a x) := le_foldl_max_self bs _
        _ = (x :: bs).foldl max a := rfl
    · exact ih (max a b) x hx

/-! ### C7: bounding-box reduction -/

/-- C7 counterexample: for the one-vertex ring at
`(lng, lat) = (0.000004, 0.000004)` the builder returns the 5-point
ring collapsed to the origin (every coordinate rounded to 5 decimals,
and `round(0.000004, 5) = 0.0`), and the vertex does **not** lie
within the returned ring's bounds: `0.000004 ≤ 0` is false.  The
rounding can therefore push a vertex outside the returned bounds,
refuting the inclusive-containment part of the claim. -/
theorem bisect_bbox_rounds_out_vertex :
    _bisect_bbox [((4 : ℚ)/1000000, (4 : ℚ)/1000000)] =
      some [((0 : ℚ), (0 : ℚ)), (0, 0), (0, 0), (0, 0), (0, 0)] ∧
      ¬ ((4 : ℚ)/1000000 ≤ 0) := by
  constructor
  · norm_num [_bisect_bbox, roundDec, pyRound, Int.fract]
  · norm_num

/-- C7 amended: `_bisect_bbox` returns null exactly for the empty
ring; for every non-empty ring it returns exactly 5 coordinate pairs
whose first pair equals its last, each coordinate an integer multiple
of `10⁻⁵` (rounded to 5 decimal digits), and every vertex of the ring
lies within the returned latitude/longitude bounds **widened by the
maximal rounding error `1/200000`** — inclusive containment in the
rounded bounds themselves does not hold (see the counterexample). -/
theorem bisect_bbox_spec (ring : LinRing) :
    (ring = [] → _bisect_bbox ring = none) ∧
    (ring ≠ [] → ∃ lngLo lngHi latLo latHi : ℚ,
      _bisect_bbox ring = some [(lngLo, latLo), (lngHi, latLo), (lngHi, latHi),
        (lngLo, latHi), (lngLo, latLo)] ∧
      (∃ za zb zc zd : ℤ, lngLo = (za : ℚ) / 100000 ∧ lngHi = (zb : ℚ) / 100000 ∧
        latLo = (zc : ℚ) / 100000 ∧ latHi = (zd : ℚ) / 100000) ∧
      ∀ p ∈ ring, lngLo - 1/200000 ≤ p.1 ∧ p.1 ≤ lngHi + 1/200000 ∧
        latLo - 1/200000 ≤ p.2 ∧ p.2 ≤ latHi + 1/200000) := by
  constructor
  · rintro rfl; rfl
  · intro hne
    match ring, hne with
    | c :: cs, _ =>
      set minLng := (cs.map Prod.fst).foldl min c.1 with hminLng
      set maxLng := (cs.map Prod.fst).foldl max c.1 with hmaxLng
      set minLat := (cs.map Prod.snd).foldl min c.2 with hminLat
      set maxLat := (cs.map Prod.snd).foldl max c.2 with hmaxLat
      refine ⟨roundDec 5 minLng, roundDec 5 maxLng, roundDec 5 minLat, roundDec 5 maxLat,
        ?_, ⟨pyRound (minLng * 10 ^ 5), pyRound (maxLng * 10 ^ 5),
             pyRound (minLat * 10 ^ 5), pyRound (maxLat * 10 ^ 5),
             by norm_num [roundDec], by norm_num [roundDec],
             by norm_num [roundDec], by norm_num [roundDec]⟩, ?_⟩
      · simp [_bisect_bbox]
      · intro p hp
        have hminLng_le : minLng ≤ p.1 := by
          rcases List.mem_cons.mp hp with rfl | hp'
          · exact foldl_min_le_self _ _
          · exact foldl_min_le_mem _ _ _ (List.mem_map_of_mem Prod.fst hp')
        have hle_maxLng : p.1 ≤ maxLng := by
          rcases List.mem_cons.mp hp with rfl | hp'
          · exact le_foldl_max_self _ _
          · exact le_foldl_max_mem _ _ _ (List.mem_map_of_mem Prod.fst hp')
        have hminLat_le : minLat ≤ p.2 := by
          rcases List.mem_cons.mp hp with rfl | hp'
          · exact foldl_min_le_self _ _
          · exact foldl_min_le_mem _ _ _ (List.mem_map_of_mem Prod.snd hp')
        have hle_maxLat : p.2 ≤ maxLat := by
          rcases List.mem_cons.mp hp with rfl | hp'
          · exact le_foldl_max_self _ _
          · exact le_foldl_max_mem _ _ _ (List.mem_map_of_mem Prod.snd hp')
        have b1 := abs_le.mp (abs_roundDec5_sub_le minLng)
        have b2 := abs_le.mp (abs_roundDec5_sub_le maxLng)
        have b3 := abs_le.mp (abs_roundDec5_sub_le minLat)
        have b4 := abs_le.mp (abs_roundDec5_sub_le maxLat)
        refine ⟨by linarith [b1.2], by linarith [b2.1], by linarith [b3.2], by linarith [b4.1]⟩

theorem bisect_bbox_spec_witness :
    _bisect_bbox ([] : LinRing) = none ∧
    (∃ lngLo lngHi latLo latHi : ℚ,
      _bisect_bbox [((1 : ℚ), (2 : ℚ))] = some [(lngLo, latLo), (lngHi, latLo),
        (lngHi, latHi), (lngLo, latHi), (lngLo, latLo)] ∧
      (∃ za zb zc zd : ℤ, lngLo = (za : ℚ) / 100000 ∧ lngHi = (zb : ℚ) / 100000 ∧
        latLo = (zc : ℚ) / 100000 ∧ latHi = (zd : ℚ) / 100000) ∧
      ∀ p ∈ [((1 : ℚ), (2 : ℚ))], lngLo - 1/200000 ≤ p.1 ∧ p.1 ≤ lngHi + 1/200000 ∧
        latLo - 1/200000 ≤ p.2 ∧ p.2 ≤ latHi + 1/200000) :=
  ⟨(bisect_bbox_spec []).1 rfl, (bisect_bbox_spec [((1 : ℚ), (2 : ℚ))]).2 (by simp)⟩

lemma bisect_bbox_checks (r b : LinRing) (h : _bisect_bbox r = some b) :
    4 ≤ b.length ∧ b.head? = b.getLast? := by
  cases r with
  | nil => simp [_bisect_bbox] at h
  | cons c cs =>
    simp only [_bisect_bbox, Option.some.injEq] at h
    subst h
    exact ⟨by simp, rfl⟩

lemma mpLoop_mono (limit : ℕ) :
    ∀ (polys : List (List LinRing)) (acc res : MultiPolyCoords),
      mpLoop limit acc polys = .ok res → acc.length ≤ res.length := by
  intro polys
  induction polys with
  | nil =>
    intro acc res h
    simp only [mpLoop] at h
    cases h
    exact le_refl _
  | cons poly rest ih =>
    intro acc res h
    unfold mpLoop at h
    split at h
    · cases h; exact le_refl _
    · match poly, h with
      | r :: _, h =>
        dsimp only at h
        cases hbb : _bisect_bbox r with
        | some b =>
          rw [hbb] at h; dsimp only at h
          have hck := bisect_bbox_checks r b hbb
          rw [if_pos hck.1, if_pos hck.2] at h
          calc acc.length ≤ (acc ++ [[b]]).length := by simp
            _ ≤ res.length := ih _ _ h
        | none => rw [hbb] at h; dsimp only at h; exact ih _ _ h

lemma mpLoop_bound (limit : ℕ) :
    ∀ (polys : List (List LinRing)) (acc res : MultiPolyCoords),
      acc.length ≤ limit → mpLoop limit acc polys = .ok res → res.length ≤ limit := by
  intro polys
  induction polys with
  | nil =>
    intro acc res hacc h
    simp only [mpLoop] at h
    cases h
    exact hacc
  | cons poly rest ih =>
    intro acc res hacc h
    unfold mpLoop at h
    split at h
    · cases h; exact hacc
    · next hlt =>
      match poly, h with
      | r :: _, h =>
        dsimp only at h
        cases hbb : _bisect_bbox r with
        | some b =>
          rw [hbb] at h; dsimp only at h
          have hck := bisect_bbox_checks r b hbb
          rw [if_pos hck.1, if_pos hck.2] at h
          exact ih _ _ (by simp; omega) h
        | none => rw [hbb] at h; dsimp only at h; exact ih _ _ hacc h

lemma mpLoop_empty_iff (limit : ℕ) (hlim : 0 < limit) :
    ∀ (polys : List (List LinRing)) (res : MultiPolyCoords),
      mpLoop limit [] polys = .ok res → (res = [] ↔ polyQualCount polys = 0) := by
  intro polys
  induction polys with
  | nil =>
    intro res h
    simp only [mpLoop] at h
    cases h
    simp [polyQualCount]
  | cons poly rest ih =>
    intro res h
    unfold mpLoop at h
    rw [if_neg (by simp only [List.length_nil]; omega)] at h
    match poly, h with
    | r :: tl, h =>
      dsimp only at h
      cases hbb : _bisect_bbox r with
      | some b =>
        rw [hbb] at h; dsimp only at h
        have hck := bisect_bbox_checks r b hbb
        rw [if_pos hck.1, if_pos hck.2] at h
        have hlen := mpLoop_mono limit rest [[b]] res h
        have hq : polyQualCount ((r :: tl) :: rest) = polyQualCount rest + 1 := by
          simp [polyQualCount, List.filter, ringOk, hbb, Nat.add_comm]
        rw [hq]
        constructor
        · intro hres
          rw [hres] at hlen
          exact absurd hlen (by simp)
        · intro hzero
          omega
      | none =>
        rw [hbb] at h; dsimp only at h
        have hq : polyQualCount ((r :: tl) :: rest) = polyQualCount rest := by
          simp [polyQualCount, List.filter, ringOk, hbb]
        rw [hq]
        exact ih res h

lemma procFeature_mono (levels : List String) (limit : ℕ) (acc : MultiPolyCoords)
    (f : RFeature) (res : MultiPolyCoords)
    (h : procFeature levels limit acc f = .ok res) : acc.length ≤ res.length := by
  unfold procFeature at h
  split at h
  · cases h; exact le_refl _
  · match hg : f.geom, h with
    | .polygon [], h => cases h; exact le_refl _
    | .polygon (r :: _), h =>
      dsimp only at h
      cases hbb : _bisect_bbox r with
      | some b =>
        rw [hbb] at h; dsimp only at h
        have hck := bisect_bbox_checks r b hbb
        rw [if_pos hck.1, if_pos hck.2] at h
        cases h; simp
      | none => rw [hbb] at h; dsimp only at h; cases h; exact le_refl _
    | .multiPolygon [], h => cases h; exact le_refl _
    | .multiPolygon (p :: ps), h =>
      dsimp only at h
      exact mpLoop_mono limit (p :: ps) acc res h
    | .other, h => cases h; exact le_refl _

lemma procFeature_bound (levels : List String) (limit : ℕ) (acc : MultiPolyCoords)
    (f : RFeature) (res : MultiPolyCoords) (hacc : acc.length < limit)
    (h : procFeature levels limit acc f = .ok res) : res.length ≤ limit := by
  unfold procFeature at h
  split at h
  · cases h; omega
  · match hg : f.geom, h with
    | .polygon [], h => cases h; omega
    | .polygon (r :: _), h =>
      dsimp only at h
      cases hbb : _bisect_bbox r with
      | some b =>
        rw [hbb] at h; dsimp only at h
        have hck := bisect_bbox_checks r b hbb
        rw [if_pos hck.1, if_pos hck.2] at h
        cases h
        simp only [List.length_append, List.length_cons, List.length_nil]
        omega
      | none => rw [hbb] at h; dsimp only at h; cases h; omega
    | .multiPolygon [], h => cases h; omega
    | .multiPolygon (p :: ps), h =>
      dsimp only at h
      exact mpLoop_bound limit (p :: ps) acc res (by omega) h
    | .other, h => cases h; omega

lemma procFeature_empty_iff (levels : List String) (limit : ℕ) (hlim : 0 < limit)
    (f : RFeature) (res : MultiPolyCoords)
    (h : procFeature levels limit [] f = .ok res) :
    (res = [] ↔ featQualCount levels f = 0) := by
  unfold procFeature at h
  unfold featQualCount
  split at h
  · next hrm =>
    cases h
    rw [if_neg (by simpa using hrm)]
    simp
  · next hrm =>
    rw [if_pos (by simpa using hrm)]
    match hg : f.geom, h with
    | .polygon [], h => cases h; simp
    | .polygon (r :: _), h =>
      dsimp only at h ⊢
      cases hbb : _bisect_bbox r with
      | some b =>
        rw [hbb] at h; dsimp only at h
        have hck := bisect_bbox_checks r b hbb
        rw [if_pos hck.1, if_pos hck.2] at h
        cases h
        simp [ringOk, hbb]
      | none =>
        rw [hbb] at h; dsimp only at h
        cases h
        simp [ringOk, hbb]
    | .multiPolygon [], h => cases h; simp [polyQualCount]
    | .multiPolygon (p :: ps), h =>
      dsimp only at h ⊢
      exact mpLoop_empty_iff limit hlim (p :: ps) res h
    | .other, h => cases h; simp

lemma err_bind {α β γ : Type} (e : γ) (f : α → Except γ β) :
    ((Except.error e : Except γ α) >>= f) = .error e := rfl

lemma ok_bind_m {α β γ : Type} (a : α) (f : α → Except γ β) :
    ((Except.ok a : Except γ α) >>= f) = f a := rfl

lemma buildLoop_mono (levels : List String) (limit : ℕ) :
    ∀ (feats : List RFeature) (acc res : MultiPolyCoords),
      buildLoop levels limit acc feats = .ok res → acc.length ≤ res.length := by
  intro feats
  induction feats with
  | nil =>
    intro acc res h
    simp only [buildLoop] at h
    cases h
    exact le_refl _
  | cons f rest ih =>
    intro acc res h
    unfold buildLoop at h
    split at h
    · cases h; exact le_refl _
    · cases hpf : procFeature levels limit acc f with
      | error e => rw [hpf, err_bind] at h; simp at h
      | ok acc' =>
        rw [hpf, ok_bind_m] at h
        exact (procFeature_mono levels limit acc f acc' hpf).trans (ih acc' res h)

lemma buildLoop_bound (levels : List String) (limit : ℕ) :
    ∀ (feats : List RFeature) (acc res : MultiPolyCoords),
      acc.length ≤ limit → buildLoop levels limit acc feats = .ok res →
        res.length ≤ limit := by
  intro feats
  induction feats with
  | nil =>
    intro acc res hacc h
    simp only [buildLoop] at h
    cases h
    exact hacc
  | cons f rest ih =>
    intro acc res hacc h
    unfold buildLoop at h
    split at h
    · cases h; exact hacc
    · next hlt =>
      cases hpf : procFeature levels limit acc f with
      | error e => rw [hpf, err_bind] at h; simp at h
      | ok acc' =>
        rw [hpf, ok_bind_m] at h
        exact ih acc' res (procFeature_bound levels limit acc f acc' (by omega) hpf) h

lemma buildLoop_empty_iff (levels : List String) (limit : ℕ) (hlim : 0 < limit) :
    ∀ (feats : List RFeature) (res : MultiPolyCoords),
      buildLoop levels limit [] feats = .ok res →
        (res = [] ↔ (feats.map (featQualCount levels)).sum = 0) := by
  intro feats
  induction feats with
  | nil =>
    intro res h
    simp only [buildLoop] at h
    cases h
    simp
  | cons f rest ih =>
    intro res h
    unfold buildLoop at h
    rw [if_neg (by simp only [List.length_nil]; omega)] at h
    cases hpf : procFeature levels limit [] f with
    | error e => rw [hpf, err_bind] at h; simp at h
    | ok acc' =>
      rw [hpf, ok_bind_m] at h
      by_cases hacc : acc' = []
      · subst hacc
        rw [List.map_cons, List.sum_cons,
          (procFeature_empty_iff levels limit hlim f [] hpf).mp rfl, Nat.zero_add]
        exact ih res h
      · have hres : res ≠ [] := by
          intro hres0
          have := buildLoop_mono levels limit rest acc' res h
          rw [hres0] at this
          simp at this
          exact hacc (List.length_eq_zero.mp (Nat.le_zero.mp (this ▸ le_refl _)))
        have hq : featQualCount levels f ≠ 0 := by
          intro h0
          exact hacc ((procFeature_empty_iff levels limit hlim f acc' hpf).mpr h0)
        constructor
        · intro h0; exact absurd h0 hres
        · intro h0
          rw [List.map_cons, List.sum_cons] at h0
          omega
      -- done

/-! ### C9: bounds of the avoidance builder -/

/-- C9 counterexample: on a dataset whose only zone matches the
avoid-set but carries a MultiPolygon geometry with one empty
sub-polygon, `build_avoid_multipolygon` neither returns null nor a
MultiPolygon — the unguarded `poly[0]` read raises an uncaught
`IndexError` (modelled as `Except.error`), in a case where zero
polygons qualify and the claim predicts a null return. -/
theorem build_avoid_raises_on_empty_subpolygon :
    build_avoid_multipolygon ⟨[emptySubPolyZone]⟩ ["forbidden"] 30 = .error () ∧
      qualCount ⟨[emptySubPolyZone]⟩ ["forbidden"] = 0 := by
  constructor
  · have hpf : procFeature ["forbidden"] 30 [] emptySubPolyZone = .error () := by
      unfold procFeature
      rw [if_neg (by
        rw [show riskMatches ["forbidden"] emptySubPolyZone = true from by decide]
        simp)]
      show mpLoop 30 [] [[]] = .error ()
      unfold mpLoop
      rw [if_neg (by simp only [List.length_nil]; omega)]
    unfold build_avoid_multipolygon
    show ((buildLoop ["forbidden"] 30 [] [emptySubPolyZone]).map _) = _
    unfold buildLoop
    rw [if_neg (by simp only [List.length_nil]; omega), hpf, err_bind]
    rfl
  · decide

/-- C9 amended: **whenever `build_avoid_multipolygon` returns** — a
matching MultiPolygon feature containing an empty sub-polygon reached
within the limit instead raises an uncaught `IndexError` — it returns
null exactly when zero polygons qualify — no feature matches the
avoid-set case-insensitively, or every matching feature's geometry
yields no usable ring — and otherwise a MultiPolygon with between 1
and `limit` polygons inclusive: never an empty collection and never
more than `limit`. -/
theorem build_avoid_polygon_bounds (fc : FeatureColl) (levels : List String)
    (limit : ℕ) (r : Option MultiPolyCoords) (hlim : 0 < limit)
    (h : build_avoid_multipolygon fc levels limit = .ok r) :
    (r = none ↔ qualCount fc levels = 0) ∧
    (∀ m, r = some m → 1 ≤ m.length ∧ m.length ≤ limit) := by
  unfold build_avoid_multipolygon at h
  cases hb : buildLoop levels limit [] fc.features with
  | error e => rw [hb] at h; simp [Except.map] at h
  | ok rings =>
    rw [hb] at h
    simp only [Except.map, Except.ok.injEq] at h
    subst h
    have hiff := buildLoop_empty_iff levels limit hlim fc.features rings hb
    by_cases hr : rings = []
    · rw [if_pos hr]
      refine ⟨⟨fun _ => ?_, fun _ => rfl⟩, fun m hm => by cases hm⟩
      exact hiff.mp hr
    · rw [if_neg hr]
      constructor
      · constructor
        · intro h0; cases h0
        · intro h0
          exact absurd (hiff.mpr h0) hr
      · intro m hm
        cases hm
        refine ⟨?_, buildLoop_bound levels limit fc.features [] rings (by simp) hb⟩
        have := List.length_pos.mpr hr
        omega

theorem build_avoid_polygon_bounds_witness :
    build_avoid_multipolygon ⟨[squareZone]⟩ ["forbidden"] 30 = .ok (some [[sqBbox]]) ∧
      1 ≤ ([[sqBbox]] : MultiPolyCoords).length ∧
      ([[sqBbox]] : MultiPolyCoords).length ≤ 30 := by
  have hbb : _bisect_bbox [((0 : ℚ), (0 : ℚ)), (10, 0), (10, 10), (0, 10), (0, 0)]
      = some sqBbox := by
    norm_num [_bisect_bbox, sqBbox, roundDec, pyRound, Int.fract, min_def, max_def]
  have hpf : procFeature ["forbidden"] 30 [] squareZone = .ok [[sqBbox]] := by
    unfold procFeature
    rw [if_neg (by rw [show riskMatches ["forbidden"] squareZone = true from by decide]; simp)]
    show (match _bisect_bbox [((0 : ℚ), (0 : ℚ)), (10, 0), (10, 10), (0, 10), (0, 0)] with
      | some bbox =>
        if 4 ≤ bbox.length then
          if bbox.head? = bbox.getLast? then Except.ok ([] ++ [[bbox]]) else Except.ok []
        else Except.ok []
      | none => Except.ok []) = Except.ok [[sqBbox]]
    rw [hbb]
    dsimp only
    rw [if_pos (by norm_num [sqBbox]), if_pos (by norm_num [sqBbox])]
    simp
  have h1 : buildLoop ["forbidden"] 30 [] [squareZone] = .ok [[sqBbox]] := by
    unfold buildLoop
    rw [if_neg (by simp only [List.length_nil]; omega), hpf, ok_bind_m]
    rfl
  have heval : build_avoid_multipolygon ⟨[squareZone]⟩ ["forbidden"] 30
      = .ok (some [[sqBbox]]) := by
    unfold build_avoid_multipolygon
    rw [show (⟨[squareZone]⟩ : FeatureColl).features = [squareZone] from rfl, h1]
    simp [Except.map]
  exact ⟨heval, (build_avoid_polygon_bounds _ _ _ _ (by norm_num) heval).2 [[sqBbox]] rfl⟩
